import Mathlib

/-!
Verification of the LLM-output normalization/validation pipeline of the
tree-grower repository (`src/app/api/career/generate/route.ts` and
`src/app/api/resources/route.ts`).

The JavaScript code is shallowly embedded: JSON values become an inductive
`Json`, `JSON.parse` becomes an executable recursive-descent parser,
thrown exceptions become `Except String`, the two sequential model
invocations become a function `calls : Nat -> Except String String`
(index 0 is the first attempt, index 1 the retry), and HTTP statuses are
plain naturals.  `Math.random`-based id generation is modelled as a
deterministic supply indexed by position; no claim depends on the random
digits.
-/

namespace TG

/-- JSON values as produced by `JSON.parse`.  Numbers are kept exactly as
decimal mantissa/exponent pairs (`num m e` denotes `m * 10 ^ e`), which is
enough to decide JavaScript truthiness (`0`, `-0`, `0.0` are falsy). -/
inductive Json where
  | null
  | bool (b : Bool)
  | num (m : Int) (e : Int)
  | str (s : String)
  | arr (elems : List Json)
  | obj (fields : List (String × Json))

/-- Property lookup on a parsed JSON object, as JavaScript property access
sees it: only objects expose fields, and for duplicate keys `JSON.parse`
keeps the last occurrence. -/
def lookupField : List (String × Json) → String → Option Json
  | [], _ => none
  | (k, v) :: rest, key =>
    match lookupField rest key with
    | some w => some w
    | none => if k = key then some v else none

/-- `j.k` / `j?.[k]` property access: `undefined` is `none`. -/
def Json.get? : Json → String → Option Json
  | .obj fs, k => lookupField fs k
  | _, _ => none

/-- `typeof j.k === 'string' ? j.k : undefined`. -/
def Json.getStr? (j : Json) (k : String) : Option String :=
  match j.get? k with
  | some (.str s) => some s
  | _ => none

/-- JavaScript truthiness of a parsed JSON value. -/
def Json.truthy : Json → Bool
  | .null => false
  | .bool b => b
  | .num m _ => m != 0
  | .str s => s != ""
  | .arr _ => true
  | .obj _ => true

def Json.isNull : Json → Bool
  | .null => true
  | _ => false

/-- Truthiness of a possibly-`undefined`/`null` JavaScript value. -/
def truthyO : Option Json → Bool
  | some j => j.truthy
  | none => false

/-- Keep a JavaScript value only when it is truthy (`x ? x : nothing`). -/
def truthyVal : Option Json → Option Json
  | some j => if j.truthy then some j else none
  | none => none

/-! ## A model of `JSON.parse` -/

/-- The four JSON whitespace characters. -/
def isJsonWs (c : Char) : Bool :=
  c = ' ' || c = '\t' || c = '\n' || c = '\r'

def hexVal? (c : Char) : Option Nat :=
  if '0' ≤ c ∧ c ≤ '9' then some (c.toNat - 48)
  else if 'a' ≤ c ∧ c ≤ 'f' then some (c.toNat - 87)
  else if 'A' ≤ c ∧ c ≤ 'F' then some (c.toNat - 55)
  else none

/-- Decode a single-character escape (everything except `\u`). -/
def escChar? (e : Char) : Option Char :=
  if e = '"' then some ('"')
  else if e = '\\' then some ('\\')
  else if e = '/' then some ('/')
  else if e = 'b' then some ('\x08')
  else if e = 'f' then some ('\x0c')
  else if e = 'n' then some ('\n')
  else if e = 'r' then some ('\r')
  else if e = 't' then some ('\t')
  else none

/-- Body of a JSON string literal, after the opening quote.  Returns the
decoded characters and the remainder after the closing quote.  Raw control
characters are rejected, escapes are decoded (`\uXXXX` code units are
mapped through `Char.ofNat`; surrogate pairing is not modelled, no claim
touches it). -/
def parseStringBody : List Char → Option (List Char × List Char)
  | [] => none
  | '"' :: rest => some ([], rest)
  | '\\' :: 'u' :: a :: b :: c :: d :: rest3 =>
    match hexVal? a, hexVal? b, hexVal? c, hexVal? d with
    | some ha, some hb, some hc, some hd =>
      match parseStringBody rest3 with
      | some (s, r2) =>
        some (Char.ofNat (((ha * 16 + hb) * 16 + hc) * 16 + hd) :: s, r2)
      | none => none
    | _, _, _, _ => none
  | '\\' :: e :: rest2 =>
    match escChar? e with
    | some c =>
      match parseStringBody rest2 with
      | some (s, r2) => some (c :: s, r2)
      | none => none
    | none => none
  | c :: rest =>
    if c.toNat < 32 then none
    else
      match parseStringBody rest with
      | some (s, r) => some (c :: s, r)
      | none => none

def takeDigits : List Char → List Char × List Char
  | [] => ([], [])
  | c :: rest =>
    if c.isDigit then
      let (ds, r) := takeDigits rest
      (c :: ds, r)
    else ([], c :: rest)

def digitsToNat (ds : List Char) : Nat :=
  ds.foldl (fun a c => a * 10 + (c.toNat - 48)) 0

/-- JSON number literal: sign, integer part without leading zeros, optional
fraction, optional exponent. -/
def parseNum (cs : List Char) : Option (Json × List Char) := do
  let (neg, cs1) :=
    match cs with
    | '-' :: r => (true, r)
    | _ => (false, cs)
  let (ids, cs2) := takeDigits cs1
  if ids = [] then none
  else if ids.length > 1 ∧ ids.headD '0' = '0' then none
  else
    let m0 : Int := Int.ofNat (digitsToNat ids)
    let (m1, e1, cs3) ←
      match cs2 with
      | '.' :: r =>
        let (fds, r2) := takeDigits r
        if fds = [] then none
        else some (m0 * Int.ofNat (10 ^ fds.length) + Int.ofNat (digitsToNat fds),
                   -(Int.ofNat fds.length), r2)
      | _ => some (m0, (0 : Int), cs2)
    let (e2, cs4) ←
      match cs3 with
      | 'e' :: r | 'E' :: r =>
        let (eneg, r1) :=
          match r with
          | '-' :: rr => (true, rr)
          | '+' :: rr => (false, rr)
          | _ => (false, r)
        let (eds, r2) := takeDigits r1
        if eds = [] then none
        else some ((if eneg then -(Int.ofNat (digitsToNat eds)) else Int.ofNat (digitsToNat eds)), r2)
      | _ => some ((0 : Int), cs3)
    some (Json.num (if neg then -m1 else m1) (e1 + e2), cs4)

mutual

/-- JSON value parser (fuel-based; the fuel passed by `parseJson` always
suffices). -/
def parseVal : Nat → List Char → Option (Json × List Char)
  | 0, _ => none
  | Nat.succ fuel, cs0 =>
    let cs := cs0.dropWhile isJsonWs
    match cs with
    | 'n' :: 'u' :: 'l' :: 'l' :: rest => some (.null, rest)
    | 't' :: 'r' :: 'u' :: 'e' :: rest => some (.bool true, rest)
    | 'f' :: 'a' :: 'l' :: 's' :: 'e' :: rest => some (.bool false, rest)
    | '"' :: rest =>
      match parseStringBody rest with
      | some (s, r) => some (.str (String.mk s), r)
      | none => none
    | '[' :: rest =>
      let rest2 := rest.dropWhile isJsonWs
      match rest2 with
      | ']' :: r2 => some (.arr [], r2)
      | _ =>
        match parseItems fuel rest2 with
        | some (xs, r) => some (.arr xs, r)
        | none => none
    | '{' :: rest =>
      let rest2 := rest.dropWhile isJsonWs
      match rest2 with
      | '}' :: r2 => some (.obj [], r2)
      | _ =>
        match parseFields fuel rest2 with
        | some (fs, r) => some (.obj fs, r)
        | none => none
    | c :: _ => if c = '-' || c.isDigit then parseNum cs else none
    | [] => none

/-- Comma-separated array items up to the closing bracket. -/
def parseItems : Nat → List Char → Option (List Json × List Char)
  | 0, _ => none
  | Nat.succ fuel, cs => do
    let (v, rest) ← parseVal fuel cs
    let rest2 := rest.dropWhile isJsonWs
    match rest2 with
    | ']' :: r2 => some ([v], r2)
    | ',' :: r2 =>
      match parseItems fuel r2 with
      | some (xs, r) => some (v :: xs, r)
      | none => none
    | _ => none

/-- Comma-separated object members up to the closing brace. -/
def parseFields : Nat → List Char → Option (List (String × Json) × List Char)
  | 0, _ => none
  | Nat.succ fuel, cs0 => do
    let cs := cs0.dropWhile isJsonWs
    match cs with
    | '"' :: rest =>
      let (k, r1) ← parseStringBody rest
      let r2 := r1.dropWhile isJsonWs
      match r2 with
      | ':' :: r3 =>
        let (v, r4) ← parseVal fuel r3
        let r5 := r4.dropWhile isJsonWs
        match r5 with
        | '}' :: r6 => some ([(String.mk k, v)], r6)
        | ',' :: r6 =>
          match parseFields fuel r6 with
          | some (fs, r) => some ((String.mk k, v) :: fs, r)
          | none => none
        | _ => none
      | _ => none
    | _ => none

end

/-- Model of `JSON.parse`: `none` is a thrown `SyntaxError`.  The whole
input must be consumed up to trailing whitespace. -/
def parseJson (s : String) : Option Json :=
  match parseVal (2 * s.length + 8) s.data with
  | some (j, rest) => if rest.dropWhile isJsonWs = [] then some j else none
  | none => none

/-- `tryParseJson` from the route: `JSON.parse` with the exception mapped
to `null`.  (A successful parse of the text `null` also yields the JS
value `null`; callers observe both through nullish coalescing, see
`pipelineExtract`.) -/
def tryParseJson (s : String) : Option Json :=
  parseJson s

/-! ## String utilities used by the route -/

/-- The whitespace class of JavaScript `\s` / `String.prototype.trim`,
restricted to its ASCII members (the unicode members never occur in the
concrete inputs considered here). -/
def isJsWs (c : Char) : Bool :=
  c = ' ' || c = '\t' || c = '\n' || c = '\r' || c = '\x0c' || c = '\x0b'

/-- `String.prototype.trim` on the character list. -/
def trimChars (cs : List Char) : List Char :=
  ((cs.dropWhile isJsWs).reverse.dropWhile isJsWs).reverse

/-- `String.prototype.trim`. -/
def jsTrimStr (s : String) : String :=
  String.mk (trimChars s.data)

def isPrefixChars : List Char → List Char → Bool
  | [], _ => true
  | _ :: _, [] => false
  | p :: ps, t :: ts => p = t && isPrefixChars ps ts

/-- First occurrence of `pat` in the text: the part before it and the part
after it. -/
def splitAtFirst (pat : List Char) : List Char → Option (List Char × List Char)
  | [] => if pat = [] then some ([], []) else none
  | c :: rest =>
    if isPrefixChars pat (c :: rest) then some ([], (c :: rest).drop pat.length)
    else
      match splitAtFirst pat rest with
      | some (pre, post) => some (c :: pre, post)
      | none => none

/-- `String.prototype.includes`. -/
def containsSub (hay need : List Char) : Bool :=
  match splitAtFirst need hay with
  | some _ => true
  | none => false

def strContainsSub (hay need : String) : Bool :=
  containsSub hay.data need.data

def lowerStr (s : String) : String :=
  String.mk (s.data.map Char.toLower)

/-- `indexOf` for a single character. -/
def charIndex? (c : Char) : List Char → Option Nat
  | [] => none
  | x :: xs =>
    if x = c then some 0
    else
      match charIndex? c xs with
      | some i => some (i + 1)
      | none => none

/-- `lastIndexOf` for a single character. -/
def charLastIndex? (c : Char) (cs : List Char) : Option Nat :=
  match charIndex? c cs.reverse with
  | some i => some (cs.length - 1 - i)
  | none => none

/-- `text.slice(start, stop)` for `0 <= start <= stop`. -/
def sliceChars {α : Type} (cs : List α) (start stop : Nat) : List α :=
  (cs.drop start).take (stop - start)

/-! ## `extractJson`: fenced-block and brace-substring extraction -/

def ticks : List Char := "```".data

/-- Does the text start with a fence tagged `json` (case-insensitively),
i.e. the fixed part of `/```json/i`? -/
def startsWithFenceJson : List Char → Bool
  | t1 :: t2 :: t3 :: a :: b :: c :: d :: _ =>
    t1 = '`' && t2 = '`' && t3 = '`' &&
    a.toLower = 'j' && b.toLower = 's' && c.toLower = 'o' && d.toLower = 'n'
  | _ => false

/-- Capture group of the first match of the regex `/```json\s*([\s\S]*?)```/i`:
scan for a position opening a json-tagged fence whose interior reaches a
closing triple backtick; the greedy `\s*` eats the whitespace after the
tag, the lazy group stops at the first closing fence. -/
def fenceJson : List Char → Option (List Char)
  | [] => none
  | c :: rest =>
    let here : Option (List Char) :=
      if startsWithFenceJson (c :: rest) then
        let body := ((c :: rest).drop 7).dropWhile isJsWs
        match splitAtFirst ticks body with
        | some (content, _) => some content
        | none => none
      else none
    match here with
    | some content => some content
    | none => fenceJson rest

/-- Capture group of the first match of `/```\s*([\s\S]*?)```/` (untagged
fence fallback). -/
def fenceAny : List Char → Option (List Char)
  | [] => none
  | c :: rest =>
    let here : Option (List Char) :=
      if isPrefixChars ticks (c :: rest) then
        let body := ((c :: rest).drop 3).dropWhile isJsWs
        match splitAtFirst ticks body with
        | some (content, _) => some content
        | none => none
      else none
    match here with
    | some content => some content
    | none => fenceAny rest

/-- `extractJson` from the route: try the json-tagged fence, else any
fence (`match(r1) || match(r2)`); if the captured group is truthy and
parses to a truthy value return it; otherwise parse the substring from
the first `{` to the last `}`; else `null`. -/
def extractJson (text : String) : Option Json :=
  let cs := text.data
  let fence : Option (List Char) :=
    match fenceJson cs with
    | some g => some g
    | none => fenceAny cs
  let fromFence : Option Json :=
    match fence with
    | some g =>
      if g = [] then none
      else
        match tryParseJson (jsTrimStr (String.mk g)) with
        | some j => if j.truthy then some j else none
        | none => none
    | none => none
  match fromFence with
  | some j => some j
  | none =>
    match charIndex? '{' cs, charLastIndex? '}' cs with
    | some start, some stop =>
      if start < stop then
        match tryParseJson (String.mk (sliceChars cs start (stop + 1))) with
        | some j => if j.truthy then some j else none
        | none => none
      else none
    | _, _ => none

/-- `coerceToNodeShape` from the route, over a possibly-`null` JS value. -/
def coerceToNodeShape : Option Json → Option Json
  | none => none
  | some m =>
    if ¬ m.truthy then none
    else if truthyO (m.get? ("node")) then some m
    else if (m.getStr? ("title")).isSome ∧ (m.getStr? ("description")).isSome then
      some (Json.obj [("node", m)])
    else none

/-- The extraction chain of the route body:
`tryParseJson(raw) ?? extractJson(raw) ?? coerceToNodeShape(tryParseJson(raw))`.
`??` skips only nullish values, so a parse producing the JS value `null`
(raw text `null`) falls through, while falsy non-null values (`0`,
`false`, `""`) are returned as-is. -/
def pipelineExtract (raw : String) : Option Json :=
  let fallback : Option Json :=
    match extractJson raw with
    | some j => some j
    | none => coerceToNodeShape (tryParseJson raw)
  match tryParseJson raw with
  | some j => if j.isNull then fallback else some j
  | none => fallback

/-! ## Step 5 coercion: `normalizeResource` / `normalizeNodeJson` -/

/-- The 4-value resource type enum of the node-generation contract. -/
inductive RType where
  | course
  | video
  | website
  | tool
deriving DecidableEq, Repr

def RType.toStr : RType → String
  | .course => "course"
  | .video => "video"
  | .website => "website"
  | .tool => "tool"

inductive Diff where
  | beginner
  | intermediate
  | advanced
deriving DecidableEq, Repr

def Diff.toStr : Diff → String
  | .beginner => "beginner"
  | .intermediate => "intermediate"
  | .advanced => "advanced"

/-- A strict resource as validated by `OutputSchema` (absent optional
fields are `none`). -/
structure SResource where
  id : String
  title : String
  description : String
  type : RType
  url : Option String
  difficulty : Option Diff
  duration : Option String
deriving DecidableEq, Repr

structure GenNode where
  title : String
  description : String
  options : List String
  resources : List SResource
deriving DecidableEq, Repr

/-- The strict `GenerationResponse` shape. -/
structure GenResponse where
  node : GenNode
deriving DecidableEq, Repr

/-- `uid()` generates `'r_' + Math.random().toString(36).slice(2, 10)`;
modelled as a deterministic supply indexed by the position of the resource
in the list — no claim depends on the random digits, only on the id being
a string. -/
def uid (n : Nat) : String :=
  "r_" ++ toString n

/-- `inferTypeFromUrl` from the route.  Note the substring tests run over
the WHOLE lowercased url string (`url.toLowerCase().includes(...)`), not
its hostname, and `if (!url)` also catches the empty string. -/
def inferTypeFromUrl (url : Option String) : RType :=
  match url with
  | none => .website
  | some s =>
    if s = "" then .website
    else
      let u := lowerStr s
      if strContainsSub u ("youtube.com") || strContainsSub u ("youtu.be") ||
         strContainsSub u ("vimeo.com") then .video
      else if strContainsSub u ("coursera.org") || strContainsSub u ("udemy.com") ||
              strContainsSub u ("edx.org") || strContainsSub u ("class") ||
              strContainsSub u ("course") then .course
      else if strContainsSub u ("github.com") || strContainsSub u ("npmjs.com") ||
              strContainsSub u ("tool") then .tool
      else .website

/-- Models success of `new URL(s)` (the WHATWG URL parser, also what zod's
`.url()` check calls): after trimming, a syntactically valid scheme
followed by `:`; for the special schemes an authority `//host` with a
nonempty, space-free host is required.  This is an approximation of the
full WHATWG grammar; every concrete string appearing in the theorems below
is decided correctly by it. -/
def isValidUrl (s : String) : Bool :=
  let cs := trimChars s.data
  match splitAtFirst [':'] cs with
  | none => false
  | some (scheme, rest) =>
    let sl := scheme.map Char.toLower
    let schemeOk :=
      match sl with
      | [] => false
      | c :: more => c.isAlpha && more.all (fun x => x.isAlphanum || x = '+' || x = '-' || x = '.')
    let special := [("http").data, ("https").data, ("ws").data, ("wss").data, ("ftp").data]
    schemeOk &&
      (if special.any (fun sp => sp = sl) then
        match rest with
        | '/' :: '/' :: r =>
          let host := r.takeWhile (fun c => c ≠ '/' && c ≠ '?' && c ≠ '#')
          host ≠ [] && host.all (fun c => c ≠ ' ')
        | _ => false
      else true)

/-- `new URL(s).hostname` (lowercased, port and userinfo stripped), for
strings accepted by `isValidUrl`. -/
def urlHost (s : String) : String :=
  let cs := trimChars s.data
  match splitAtFirst [':'] cs with
  | none => ""
  | some (_, rest) =>
    match rest with
    | '/' :: '/' :: r =>
      let auth := r.takeWhile (fun c => c ≠ '/' && c ≠ '?' && c ≠ '#')
      let afterUser :=
        match splitAtFirst ['@'] auth with
        | some (_, h) => h
        | none => auth
      String.mk ((afterUser.takeWhile (fun c => c ≠ ':')).map Char.toLower)
    | _ => ""

/-- `hostname.replace(/^www\./, '')`. -/
def stripWww (h : String) : String :=
  if h.startsWith ("www.") then String.mk (h.data.drop 4) else h

/-- Default `JSON.stringify` of a parsed JSON value (used by
`toStringArray` for option entries that are neither strings nor labelled
objects).  Number formatting is approximated by the exact
mantissa/exponent pair; no claim inspects stringified numbers. -/
def escJsonChar (c : Char) : String :=
  if c = '"' then "\\\""
  else if c = '\\' then "\\\\"
  else if c = '\n' then "\\n"
  else if c = '\r' then "\\r"
  else if c = '\t' then "\\t"
  else if c.toNat < 32 then "\\u" ++ (Nat.toDigits 16 c.toNat).asString
  else String.singleton c

def numRepr (m e : Int) : String :=
  if e = 0 then toString m else toString m ++ "e" ++ toString e

mutual

def jsonStringify : Json → String
  | .null => "null"
  | .bool b => if b then "true" else "false"
  | .num m e => numRepr m e
  | .str s => "\"" ++ String.join (s.data.map escJsonChar) ++ "\""
  | .arr xs => "[" ++ stringifyList xs ++ "]"
  | .obj fs => "\x7b" ++ stringifyFields fs ++ "\x7d"

def stringifyList : List Json → String
  | [] => ""
  | [x] => jsonStringify x
  | x :: y :: rest => jsonStringify x ++ "," ++ stringifyList (y :: rest)

def stringifyFields : List (String × Json) → String
  | [] => ""
  | [(k, v)] => "\"" ++ String.join (k.data.map escJsonChar) ++ "\":" ++ jsonStringify v
  | (k, v) :: f :: rest =>
    "\"" ++ String.join (k.data.map escJsonChar) ++ "\":" ++ jsonStringify v ++ "," ++
      stringifyFields (f :: rest)

end

/-- Entry mapping of `toStringArray`: a string stays, an object with a
string `label` contributes the label, anything else is stringified. -/
def optItem (v : Json) : String :=
  match v with
  | .str s => s
  | _ =>
    match v.getStr? ("label") with
    | some l => l
    | none => jsonStringify v

/-- `toStringArray` from the route (`filter(Boolean)` drops empty
strings). -/
def toStringArray (x : Option Json) : List String :=
  match x with
  | none => []
  | some v =>
    if ¬ v.truthy then []
    else
      match v with
      | .arr xs => (xs.map optItem).filter (fun s => s != "")
      | .str s => [s]
      | _ => []

/-- `url` / `link` extraction of `normalizeResource`'s object branch. -/
def resUrlOf (v : Json) : Option String :=
  match v.getStr? ("url") with
  | some u => some u
  | none => v.getStr? ("link")

/-- The title of `normalizeResource`'s object branch.  Evaluating
`new URL(url).hostname` THROWS on a malformed url string — the error case
of the `Except`. -/
def resTitle (r : Json) (url : Option String) : Except String String :=
  match r.getStr? ("title") with
  | some t => .ok t
  | none =>
    match r.getStr? ("name") with
    | some t => .ok t
    | none =>
      match r.getStr? ("label") with
      | some t => .ok t
      | none =>
        match url with
        | some u =>
          if u = "" then .ok ("Resource")
          else if isValidUrl u then .ok (stripWww (urlHost u))
          else .error ("Invalid URL")
        | none => .ok ("Resource")

/-- `normalizeResource` from the route.  `.ok none` is the JS `return
null` (the element is dropped); `.error` is a thrown exception
(`new URL` on a malformed url with no usable title).  JS `typeof x ===
'object'` is true for both objects and arrays, so both take the object
branch; `null`, booleans and numbers fall through to `return null`. -/
def normalizeResource (n : Nat) (anyRes : Json) : Except String (Option SResource) :=
  match anyRes with
  | .str s =>
    let maybeUrl := if s.startsWith ("http") then some s else none
    .ok (some
      { id := uid n
        title :=
          match maybeUrl with
          | some _ => "Resource"
          | none => if s = "" then "Resource" else s
        description := ""
        type := inferTypeFromUrl maybeUrl
        url := maybeUrl
        difficulty := none
        duration := none })
  | .obj _ | .arr _ =>
    match resTitle anyRes (resUrlOf anyRes) with
    | .error e => .error e
    | .ok title =>
      let url := resUrlOf anyRes
      let description :=
        match anyRes.getStr? ("description") with
        | some d => d
        | none =>
          match anyRes.getStr? ("summary") with
          | some d => d
          | none => ""
      let rawT :=
        match anyRes.getStr? ("type") with
        | some t => lowerStr t
        | none => ""
      let type :=
        if rawT = "course" then RType.course
        else if rawT = "video" then RType.video
        else if rawT = "website" then RType.website
        else if rawT = "tool" then RType.tool
        else inferTypeFromUrl url
      let difficulty :=
        match anyRes.getStr? ("difficulty") with
        | some d =>
          let dl := lowerStr d
          if dl = "beginner" then some Diff.beginner
          else if dl = "intermediate" then some Diff.intermediate
          else if dl = "advanced" then some Diff.advanced
          else none
        | none => none
      let duration := anyRes.getStr? ("duration")
      let id :=
        match anyRes.getStr? ("id") with
        | some i => i
        | none => uid n
      .ok (some { id, title, description, type, url, difficulty, duration })
  | _ => .ok none

/-- `rawRes.map(normalizeResource)` with the JS left-to-right evaluation:
a throw anywhere aborts the whole map. -/
def mapNormalize (n : Nat) : List Json → Except String (List (Option SResource))
  | [] => .ok []
  | x :: xs =>
    match normalizeResource n x with
    | .error e => .error e
    | .ok r =>
      match mapNormalize (n + 1) xs with
      | .error e => .error e
      | .ok rs => .ok (r :: rs)

/-- `const candidate = json?.node ? json.node : json`. -/
def candidateOf (json : Json) : Json :=
  match json.get? ("node") with
  | some n => if n.truthy then n else json
  | none => json

def normTitle (c : Json) : String :=
  match c.getStr? ("title") with
  | some t => if jsTrimStr t = "" then "Next Step" else jsTrimStr t
  | none => "Next Step"

def normDesc (c : Json) : String :=
  match c.getStr? ("description") with
  | some d => jsTrimStr d
  | none => "Continue exploring this path."

def normOptions (c : Json) : List String :=
  (toStringArray (c.get? ("options"))).take 6

def rawResources (c : Json) : List Json :=
  match c.get? ("resources") with
  | some (.arr xs) => xs
  | _ => []

/-- `normalizeNodeJson` from the route (Step 5 coercion).  The error case
is the `new URL` throw propagating out of `normalizeResource`. -/
def normalizeNodeJson (json : Json) : Except String GenResponse :=
  match mapNormalize 0 (rawResources (candidateOf json)) with
  | .error e => .error e
  | .ok l =>
    .ok { node :=
      { title := normTitle (candidateOf json)
        description := normDesc (candidateOf json)
        options := normOptions (candidateOf json)
        resources := (l.filterMap id).take 8 } }

/-! ## Step 6 strict validation (`OutputSchema.parse`) -/

def resourceSchemaOk (r : SResource) : Bool :=
  match r.url with
  | some u => isValidUrl u
  | none => true

/-- Decides success of `OutputSchema.parse` on an already-typed response:
`title`/`description` need `min(1)`, resource urls must pass
`z.string().url()`; everything else is enforced by the types. -/
def outputSchemaOk (g : GenResponse) : Bool :=
  g.node.title != "" && g.node.description != "" &&
    g.node.resources.all resourceSchemaOk

/-! ## The POST orchestration of the node-generation route -/

/-- Steps 5–6 on an extracted truthy value: coercion then strict
validation.  The message of a zod validation throw is modelled by a fixed
string (no claim inspects it). -/
def finishAttempt (json : Json) : Except String GenResponse :=
  match normalizeNodeJson json with
  | .error e => .error e
  | .ok g => if outputSchemaOk g then .ok g else .error ("ZodError: output validation failed")

/-- The model-invocation/retry loop of `POST`, over an abstract provider
`calls` (`calls i` is the i-th invocation: `.error` models a thrown
transport failure — network error, non-2xx, missing credential — and
`.ok raw` the returned text).  Returns how many invocations were issued
and the outcome as the route's `try` block sees it. -/
def runGenerate (calls : Nat → Except String String) : Nat × Except String GenResponse :=
  match calls 0 with
  | .error e => (1, .error e)
  | .ok raw1 =>
    match truthyVal (pipelineExtract raw1) with
    | some j => (1, finishAttempt j)
    | none =>
      match calls 1 with
      | .error e => (2, .error e)
      | .ok raw2 =>
        match truthyVal (pipelineExtract raw2) with
        | some j => (2, finishAttempt j)
        | none => (2, .error ("Model did not return valid JSON."))

/-! ## The input contract (`RequestSchema`) -/

def isStr : Option Json → Bool
  | some (.str _) => true
  | _ => false

def isStrArr : Option Json → Bool
  | some (.arr xs) => xs.all (fun v => match v with | .str _ => true | _ => false)
  | _ => false

def optStr : Option Json → Bool
  | none => true
  | some (.str _) => true
  | _ => false

def isNum : Option Json → Bool
  | some (.num _ _) => true
  | _ => false

/-- `ProfileSchema.parse` succeeds (zod strips unknown keys; `experience`
and `goals` are optional-with-default). -/
def profileOk (j : Json) : Bool :=
  match j with
  | .obj _ =>
    isStr (j.get? ("id")) && isStr (j.get? ("currentSituation")) &&
    isStrArr (j.get? ("interests")) && optStr (j.get? ("experience")) &&
    optStr (j.get? ("goals"))
  | _ => false

/-- `PathNodeSchema.parse` succeeds (`resources` is `z.array(z.any())`). -/
def pathNodeOk (j : Json) : Bool :=
  match j with
  | .obj _ =>
    isStr (j.get? ("id")) && isStr (j.get? ("title")) &&
    isStr (j.get? ("description")) && isStrArr (j.get? ("options")) &&
    (match j.get? ("resources") with
     | some (.arr _) => true
     | _ => false) &&
    isNum (j.get? ("level")) && optStr (j.get? ("parentId"))
  | _ => false

/-- `RequestSchema.parse` (discriminated union on `kind`) succeeds. -/
def requestOk (j : Json) : Bool :=
  match j with
  | .obj _ =>
    match j.get? ("kind") with
    | some (.str k) =>
      if k = "initial" then
        match j.get? ("profile") with
        | some p => profileOk p
        | none => false
      else if k = "next" then
        (match j.get? ("userProfile") with
         | some p => profileOk p
         | none => false) &&
        (match j.get? ("pathHistory") with
         | some (.arr xs) => xs.all pathNodeOk
         | _ => false) &&
        (match j.get? ("currentNode") with
         | some n => pathNodeOk n
         | none => false)
      else false
    | _ => false
  | _ => false

/-- The full `POST` handler of the node-generation route: body parse,
input-schema validation, then the invocation/retry loop; every thrown
error is caught and surfaced as status 500.  Result: (model calls issued,
HTTP status, payload).  `body = none` models a request body that is not
valid JSON (`req.json()` throws). -/
def handleGenerate (body : Option Json) (calls : Nat → Except String String) :
    Nat × Nat × Except String GenResponse :=
  match body with
  | none => (0, 500, .error ("SyntaxError: request body is not valid JSON"))
  | some b =>
    if requestOk b then
      let (n, res) := runGenerate calls
      match res with
      | .ok g => (n, 200, .ok g)
      | .error e => (n, 500, .error e)
    else (0, 500, .error ("ZodError: invalid GenerationRequest"))

/-! ## The resource-discovery route (`src/app/api/resources/route.ts`) -/

mutual

/-- JavaScript `String(v)` coercion of a parsed JSON value (arrays join
their elements with `,`, objects print `[object Object]`). -/
def jsToStr : Json → String
  | .null => "null"
  | .bool b => if b then "true" else "false"
  | .num m e => numRepr m e
  | .str s => s
  | .arr xs => jsArrToStr xs
  | .obj _ => "[object Object]"

def jsArrToStr : List Json → String
  | [] => ""
  | [x] => if x.isNull then "" else jsToStr x
  | x :: y :: rest => (if x.isNull then "" else jsToStr x) ++ "," ++ jsArrToStr (y :: rest)

end

/-- A resource as shaped by the discovery route.  `title` stays a raw JS
value: the fallback `(r.url || "Untitled")` passes the url field through
unstringified. -/
structure DResource where
  id : String
  title : Json
  url : String
  description : String
  type : String
  source : String

/-- `(r.url || r.title || "x")`, the receiver of `.slice(0, 20)` in the
shaped id. -/
def sliceBaseOf (r : Json) : Json :=
  match truthyVal (r.get? ("url")) with
  | some u => u
  | none =>
    match truthyVal (r.get? ("title")) with
    | some t => t
    | none => .str "x"

/-- `v.slice(0, 20)` as used in the template literal: strings and arrays
have a `slice` method, any other truthy receiver throws a `TypeError`. -/
def sliceBase (base : Json) : Except String String :=
  match base with
  | .str s => .ok (String.mk (s.data.take 20))
  | .arr xs => .ok (jsToStr (.arr (xs.take 20)))
  | _ => .error ("TypeError: slice is not a function")

/-- Shape one raw entry (`shaped` map of the route).  `.error` models the
`TypeError` thrown by `.slice` when `r.url`/`r.title` is a truthy value
that is neither a string nor an array. -/
def shapeOne (i : Nat) (r : Json) : Except String DResource :=
  match sliceBase (sliceBaseOf r) with
  | .error e => .error e
  | .ok sl =>
    let t0 :=
      match truthyVal (r.get? ("title")) with
      | some tv => jsTrimStr (jsToStr tv)
      | none => ""
    let title : Json :=
      if t0 = "" then
        match truthyVal (r.get? ("url")) with
        | some u => u
        | none => .str "Untitled"
      else .str t0
    let url :=
      jsTrimStr
        (match truthyVal (r.get? ("url")) with
         | some u => jsToStr u
         | none => "")
    let description :=
      match truthyVal (r.get? ("description")) with
      | some d => jsTrimStr (jsToStr d)
      | none => ""
    let type :=
      match r.get? ("type") with
      | some (.str s) =>
        if s = "video" || s = "course" || s = "thread" || s = "paper" || s = "tool" then s
        else "website"
      | _ => "website"
    .ok
      { id := "gem-" ++ toString i ++ "-" ++ sl, title, url, description, type,
        source := "gemini" }

def shapeItems (i : Nat) : List Json → Except String (List DResource)
  | [] => .ok []
  | x :: xs =>
    match shapeOne i x with
    | .error e => .error e
    | .ok d =>
      match shapeItems (i + 1) xs with
      | .error e => .error e
      | .ok ds => .ok (d :: ds)

/-- `.filter((x) => x.url)`. -/
def dropNoUrl (l : List DResource) : List DResource :=
  l.filter (fun d => d.url != "")

def coerceArray : Option Json → List Json
  | some (.arr xs) => xs
  | _ => []

/-- `x ?? y` step: a present `null` is nullish. -/
def nonNullish : Option Json → Option Json
  | some j => if j.isNull then none else some j
  | none => none

def optGet (o : Option Json) (k : String) : Option Json :=
  match o with
  | some j => j.get? k
  | none => none

/-- `x?.[0]` (arrays index, strings index into their characters, objects
look up the key "0"). -/
def optIdx0 : Option Json → Option Json
  | some (.arr (x :: _)) => some x
  | some (.arr []) => none
  | some (.str s) =>
    match s.data with
    | c :: _ => some (.str (String.singleton c))
    | [] => none
  | some (.obj fs) => lookupField fs ("0")
  | _ => none

/-- `json?.candidates?.[0]?.content?.parts?.[0]`. -/
def partOf (j : Option Json) : Option Json :=
  optIdx0 (optGet (optGet (optIdx0 (optGet j ("candidates"))) ("content")) ("parts"))

/-- `...?.text ?? ...?.inlineData?.data` (`none` means the final `?? ""`
kicks in). -/
def textOf (j : Option Json) : Option Json :=
  match nonNullish (optGet (partOf j) ("text")) with
  | some t => some t
  | none => nonNullish (optGet (optGet (partOf j) ("inlineData")) ("data"))

/-- The `{resources: []}` fallback object of the brace-extraction
branch. -/
def emptyResObj : Json :=
  Json.obj [("resources", Json.arr [])]

/-- `JSON.parse(text)` with the brace-substring fallback of the discovery
route; `.error` models an uncaught throw inside the fallback (it is NOT
wrapped in its own try/catch).  `text` is the possibly-non-string value of
the nullish chain (`none` = the `?? ""` default). -/
def textToParsed : Option Json → Except String Json
  | none => .ok emptyResObj
  | some (.str s) =>
    match parseJson s with
    | some p => .ok p
    | none =>
      match charIndex? '{' s.data, charLastIndex? '}' s.data with
      | some start, some stop =>
        if start ≤ stop then
          match parseJson (String.mk (sliceChars s.data start (stop + 1))) with
          | some p => .ok p
          | none => .error ("SyntaxError: unparseable brace substring")
        else .ok emptyResObj
      | _, _ => .ok emptyResObj
  | some v =>
    match parseJson (jsToStr v) with
    | some p => .ok p
    | none =>
      match v with
      | .arr xs =>
        let isOpen : Json → Bool := fun x =>
          match x with
          | .str s => s = "\x7b"
          | _ => false
        let isClose : Json → Bool := fun x =>
          match x with
          | .str s => s = "\x7d"
          | _ => false
        match xs.findIdx? isOpen, (xs.reverse.findIdx? isClose).map (fun i => xs.length - 1 - i) with
        | some start, some stop =>
          if start ≤ stop then
            match parseJson (jsToStr (.arr (sliceChars xs start (stop + 1)))) with
            | some p => .ok p
            | none => .error ("SyntaxError: unparseable brace substring")
          else .ok emptyResObj
        | _, _ => .ok emptyResObj
      | _ => .error ("TypeError: indexOf is not a function")

/-- `normalizeQ`: trim, then clamp to 800 characters; non-strings become
the empty string. -/
def normalizeQ (raw : Option Json) : String :=
  match raw with
  | some (.str s) => String.mk ((jsTrimStr s).data.take 800)
  | _ => ""

/-- The `POST` handler of the resource-discovery route: (HTTP status,
resources list).  Every non-200 branch carries an empty list.  `body =
none` models an unparseable request body (swallowed by
`.catch(() => ({q: ""}))`); a body of JSON `null` throws at destructuring.
`upstream` is the provider fetch: `.error` a network throw, `.ok (status,
raw)` the response status and text. -/
def resourcesPOST (hasKey : Bool) (body : Option Json)
    (upstream : Except String (Nat × String)) : Nat × List DResource :=
  if ¬ hasKey then (500, [])
  else
    match body with
    | some Json.null => (500, [])
    | _ =>
      if normalizeQ (optGet body ("q")) = "" then (400, [])
      else
        match upstream with
        | .error _ => (500, [])
        | .ok (status, raw) =>
          if ¬ (200 ≤ status ∧ status ≤ 299) then (status, [])
          else
            match textToParsed (textOf (parseJson raw)) with
            | .error _ => (500, [])
            | .ok parsed =>
              match shapeItems 0 ((coerceArray (parsed.get? ("resources"))).take 12) with
              | .error _ => (500, [])
              | .ok shaped => (200, dropNoUrl shaped)

/-! # Theorems

Shared helper lemmas first, then one theorem per claim C1–C10 (with
counterexamples and witnesses where applicable). -/

/-- Every successful coercion clamps options to 6 and resources to 8. -/
theorem normalize_bounds (j : Json) (g : GenResponse)
    (h : normalizeNodeJson j = .ok g) :
    g.node.options.length ≤ 6 ∧ g.node.resources.length ≤ 8 := by
  unfold normalizeNodeJson at h
  split at h
  · exact absurd h (by simp)
  · injection h with h
    subst h
    exact ⟨List.length_take_le 6 _, List.length_take_le 8 _⟩

/-! ## C2: transport failure of the first invocation -/

/-- C2 (counterexample): the claim says a failed first model invocation
proceeds to the retry and issues the second invocation before any
terminal error.  On the code, a thrown first call propagates straight to
the catch block: exactly one invocation is issued and its error is
surfaced as the terminal outcome. -/
theorem c2_claim_counterexample :
    runGenerate (fun _ => Except.error ("network error")) =
      (1, Except.error ("network error")) := rfl

/-- C2 (amended): a transport failure (network error, non-2xx, missing
credential) of the FIRST model invocation aborts the pipeline immediately
with that error; the retry is reserved for extraction failures of a call
that returned text. -/
theorem c2_amended_first_failure_terminal (calls : Nat → Except String String)
    (e : String) (h : calls 0 = Except.error e) :
    runGenerate calls = (1, Except.error e) := by
  unfold runGenerate
  rw [h]

theorem c2_amended_witness :
    runGenerate (fun _ => Except.error ("boom")) = (1, Except.error ("boom")) :=
  c2_amended_first_failure_terminal (fun _ => Except.error ("boom")) ("boom") rfl

/-! ## C3: retry exhaustion -/

/-- C3 (confirmed): when both invocations return text from which the
extraction chain obtains nothing truthy, the pipeline issues exactly two
model calls and fails with the terminal error message of the route
(`Model did not return valid JSON.`). -/
theorem c3_retry_exhaustion (calls : Nat → Except String String)
    (raw1 raw2 : String)
    (h0 : calls 0 = Except.ok raw1) (h1 : calls 1 = Except.ok raw2)
    (e1 : truthyVal (pipelineExtract raw1) = none)
    (e2 : truthyVal (pipelineExtract raw2) = none) :
    runGenerate calls = (2, Except.error ("Model did not return valid JSON.")) := by
  unfold runGenerate
  simp only [h0, e1, h1, e2]

theorem c3_retry_exhaustion_witness :
    runGenerate (fun _ => Except.ok ("no json here")) =
      (2, Except.error ("Model did not return valid JSON.")) :=
  c3_retry_exhaustion (fun _ => Except.ok ("no json here"))
    ("no json here") ("no json here") rfl rfl rfl rfl

/-! ## C10: falsy-but-valid JSON responses -/

/-- C10 (confirmed): the texts `null`, `0`, `false` and `""` each parse as
valid JSON, yet the extraction chain treats them as failures (they are
nullish or falsy), so a pipeline receiving such text on both attempts
retries once and then fails with the terminal error. -/
theorem c10_falsy_json_retry :
    ((parseJson ("null")).isSome = true ∧
      truthyVal (pipelineExtract ("null")) = none ∧
      runGenerate (fun _ => Except.ok ("null")) =
        (2, Except.error ("Model did not return valid JSON."))) ∧
    ((parseJson ("0")).isSome = true ∧
      truthyVal (pipelineExtract ("0")) = none ∧
      runGenerate (fun _ => Except.ok ("0")) =
        (2, Except.error ("Model did not return valid JSON."))) ∧
    ((parseJson ("false")).isSome = true ∧
      truthyVal (pipelineExtract ("false")) = none ∧
      runGenerate (fun _ => Except.ok ("false")) =
        (2, Except.error ("Model did not return valid JSON."))) ∧
    ((parseJson ("\"\"")).isSome = true ∧
      truthyVal (pipelineExtract ("\"\"")) = none ∧
      runGenerate (fun _ => Except.ok ("\"\"")) =
        (2, Except.error ("Model did not return valid JSON."))) :=
  ⟨⟨rfl, rfl, rfl⟩, ⟨rfl, rfl, rfl⟩, ⟨rfl, rfl, rfl⟩, ⟨rfl, rfl, rfl⟩⟩

/-! ## C8: malformed request bodies -/

/-- A syntactically valid `initial` request body. -/
def goodInitialRequest : Json :=
  Json.obj [("kind", Json.str ("initial")),
            ("profile", Json.obj
              [("id", Json.str ("u1")),
               ("currentSituation", Json.str ("student")),
               ("interests", Json.arr [])])]

/-- C8 (counterexample): a malformed body is indeed rejected with zero
model calls, but with HTTP status 500 — the same generic server-error
status an upstream transport failure receives — not a client-error (4xx)
status distinct from upstream-model errors. -/
theorem c8_claim_counterexample :
    handleGenerate (some (Json.obj [])) (fun _ => Except.ok ("x")) =
      (0, 500, Except.error ("ZodError: invalid GenerationRequest")) ∧
    handleGenerate (some goodInitialRequest) (fun _ => Except.error ("upstream down")) =
      (1, 500, Except.error ("upstream down")) :=
  ⟨rfl, rfl⟩

/-- C8 (amended): a request body failing `RequestSchema` is rejected
before any model invocation (zero calls issued), but is surfaced with the
same generic 500 status as every other failure, distinguished only by the
error message. -/
theorem c8_amended_reject_before_call (b : Json)
    (calls : Nat → Except String String) (h : requestOk b = false) :
    handleGenerate (some b) calls =
      (0, 500, Except.error ("ZodError: invalid GenerationRequest")) := by
  simp [handleGenerate, h]

theorem c8_amended_witness :
    requestOk (Json.obj [("kind", Json.str ("wrong"))]) = false ∧
    handleGenerate (some (Json.obj [("kind", Json.str ("wrong"))]))
        (fun _ => Except.ok ("y")) =
      (0, 500, Except.error ("ZodError: invalid GenerationRequest")) :=
  ⟨rfl, c8_amended_reject_before_call (Json.obj [("kind", Json.str ("wrong"))])
    (fun _ => Except.ok ("y")) rfl⟩

/-! ## C7: URL → type inference -/

/-- All keywords of the claimed hostname-based inference rule. -/
def hostKeywords : List String :=
  ["youtube.com", "youtu.be", "vimeo.com", "coursera.org", "udemy.com",
   "edx.org", "class", "course", "github.com", "npmjs.com", "tool"]

/-- C7 (counterexample): the claim keys the inference on the URL's
HOSTNAME.  For `https://example.com/a?x=youtube.com` the hostname
`example.com` contains none of the rule's keywords, so the claimed rule
yields `website` — but the code tests the whole URL string and returns
`video`. -/
theorem c7_claim_counterexample :
    hostKeywords.all
        (fun k => !(strContainsSub (urlHost ("https://example.com/a?x=youtube.com")) k)) =
      true ∧
    inferTypeFromUrl (some ("https://example.com/a?x=youtube.com")) = RType.video := by
  exact ⟨by decide, by decide⟩

/-- Modelled from the amended spec rule: the keyword tests run over the
ENTIRE lowercased URL string (not its hostname); first match in the order
video → course → tool wins, otherwise (and with no or an empty URL)
`website`. -/
def inferTypeSpecWholeUrl : Option String → RType
  | none => .website
  | some s =>
    if s = "" then .website
    else
      let u := lowerStr s
      if (["youtube.com", "youtu.be", "vimeo.com"].any
            fun k => strContainsSub u k) then .video
      else if (["coursera.org", "udemy.com", "edx.org", "class", "course"].any
            fun k => strContainsSub u k) then .course
      else if (["github.com", "npmjs.com", "tool"].any
            fun k => strContainsSub u k) then .tool
      else .website

/-- C7 (amended): the code's inference agrees everywhere with the
whole-URL-substring rule, and its result is always one of the four
allowed values (never undefined). -/
theorem c7_amended_whole_url_rule (u : Option String) :
    inferTypeFromUrl u = inferTypeSpecWholeUrl u ∧
    (inferTypeFromUrl u = RType.video ∨ inferTypeFromUrl u = RType.course ∨
     inferTypeFromUrl u = RType.tool ∨ inferTypeFromUrl u = RType.website) := by
  constructor
  · cases u with
    | none => rfl
    | some s =>
      simp only [inferTypeFromUrl, inferTypeSpecWholeUrl, List.any_cons,
        List.any_nil, Bool.or_false, Bool.or_assoc]
  · cases h : inferTypeFromUrl u <;> simp

/-! ## C5: totality of the coercion -/

def isOkRes : Except String (Option SResource) → Bool
  | .ok _ => true
  | .error _ => false

/-- C5 (counterexample): the claim says the coercion never throws, in
particular on an object whose url field is a malformed URL string with no
title/name/label.  On exactly that input `normalizeResource` evaluates
`new URL(url).hostname` and throws. -/
theorem c5_claim_counterexample :
    isOkRes (normalizeResource 0 (Json.obj [("url", Json.str ("nota url"))])) = false :=
  rfl

/-- The one shape on which `normalizeResource` throws: an object (or
array) with no string `title`/`name`/`label`, whose `url`/`link` string is
nonempty and not a parseable URL. -/
def badResourceInput (v : Json) : Bool :=
  match v with
  | .obj _ | .arr _ =>
    (v.getStr? ("title")).isNone && (v.getStr? ("name")).isNone &&
    (v.getStr? ("label")).isNone &&
    (match resUrlOf v with
     | some u => u != "" && !(isValidUrl u)
     | none => false)
  | _ => false

/-- `resTitle` can only throw on the bad shape. -/
theorem resTitle_error_shape (v : Json) (e : String)
    (h : resTitle v (resUrlOf v) = .error e) :
    (v.getStr? ("title")).isNone = true ∧ (v.getStr? ("name")).isNone = true ∧
    (v.getStr? ("label")).isNone = true ∧
    ∃ u, resUrlOf v = some u ∧ (u != "" && !(isValidUrl u)) = true := by
  unfold resTitle at h
  cases ht : v.getStr? ("title") with
  | some t => simp only [ht] at h; exact absurd h (by simp)
  | none =>
    simp only [ht] at h
    cases hn : v.getStr? ("name") with
    | some t => simp only [hn] at h; exact absurd h (by simp)
    | none =>
      simp only [hn] at h
      cases hl : v.getStr? ("label") with
      | some t => simp only [hl] at h; exact absurd h (by simp)
      | none =>
        simp only [hl] at h
        cases hu : resUrlOf v with
        | none => simp only [hu] at h; exact absurd h (by simp)
        | some u =>
          simp only [hu] at h
          by_cases he : u = ""
          · rw [if_pos he] at h; exact absurd h (by simp)
          · rw [if_neg he] at h
            by_cases hval : isValidUrl u = true
            · rw [if_pos hval] at h; exact absurd h (by simp)
            · rw [if_neg hval] at h
              refine ⟨by simp [ht], by simp [hn], by simp [hl], u, rfl, ?_⟩
              simp only [Bool.and_eq_true, bne_iff_ne, ne_eq, Bool.not_eq_true']
              exact ⟨he, by simpa using hval⟩

/-- C5 (amended): the coercion is total and never throws EXCEPT on the one
bad shape of `badResourceInput` (object/array, no string
title/name/label, and a nonempty non-URL `url`/`link` string), where the
hostname-derived-title path raises; on every other input it returns a
coerced resource or a rejection. -/
theorem c5_amended_total_except_bad_url (n : Nat) (v : Json)
    (h : badResourceInput v = false) :
    isOkRes (normalizeResource n v) = true := by
  cases v with
  | null => rfl
  | bool b => rfl
  | num m e => rfl
  | str s => rfl
  | arr xs =>
    unfold normalizeResource
    cases hr : resTitle (Json.arr xs) (resUrlOf (Json.arr xs)) with
    | ok t => rfl
    | error e =>
      obtain ⟨h1, h2, h3, u, h4, h5⟩ := resTitle_error_shape _ _ hr
      exact absurd h (by simp [badResourceInput, h1, h2, h3, h4, h5])
  | obj fs =>
    unfold normalizeResource
    cases hr : resTitle (Json.obj fs) (resUrlOf (Json.obj fs)) with
    | ok t => rfl
    | error e =>
      obtain ⟨h1, h2, h3, u, h4, h5⟩ := resTitle_error_shape _ _ hr
      exact absurd h (by simp [badResourceInput, h1, h2, h3, h4, h5])

theorem c5_amended_witness :
    badResourceInput (Json.str ("a plain note")) = false ∧
    isOkRes (normalizeResource 0 (Json.str ("a plain note"))) = true :=
  ⟨rfl, c5_amended_total_except_bad_url 0 (Json.str ("a plain note")) rfl⟩

/-! ## C4: objects with no usable title/description -/

/-- C4 (counterexample): the raw text `{"foo":1}` parses to a truthy
object with no `node` property and no title/description strings.  The
claim says Step 5 rejects it and the pipeline fails; instead the pipeline
succeeds with a 200 response built from the default title and
description. -/
theorem c4_claim_counterexample :
    runGenerate (fun _ => Except.ok ("\x7b\"foo\":1\x7d")) =
      (1, Except.ok
        { node := { title := "Next Step",
                    description := "Continue exploring this path.",
                    options := [], resources := [] } }) := rfl

/-- Does the coercion fall back to the default title on this candidate? -/
def titleFallsBack (c : Json) : Bool :=
  match c.getStr? ("title") with
  | some t => jsTrimStr t == ""
  | none => true

/-- The ok-result (if any) carries both default texts. -/
def usesDefaults : Except String GenResponse → Bool
  | .ok g =>
    (g.node.title == "Next Step") &&
      (g.node.description == "Continue exploring this path.")
  | .error _ => true

/-- C4 (amended): a successfully extracted truthy object with no truthy
`node` property and no usable title/description strings is NOT rejected:
`coerceToNodeShape` (which would reject it) sits in a dead arm of the
nullish chain, and `normalizeNodeJson` substitutes the default title
`Next Step` and default description `Continue exploring this path.` in
any successful result. -/
theorem c4_amended_defaults_used (j : Json)
    (hnode : truthyO (j.get? ("node")) = false)
    (htitle : titleFallsBack j = true)
    (hdesc : j.getStr? ("description") = none) :
    usesDefaults (normalizeNodeJson j) = true := by
  have hc : candidateOf j = j := by
    unfold candidateOf
    cases hn : j.get? ("node") with
    | none => rfl
    | some n =>
      rw [hn] at hnode
      simp only [truthyO] at hnode
      simp [hnode]
  unfold normalizeNodeJson
  rw [hc]
  cases hm : mapNormalize 0 (rawResources j) with
  | error e => rfl
  | ok l =>
    have hT : normTitle j = "Next Step" := by
      unfold normTitle
      unfold titleFallsBack at htitle
      cases ht : j.getStr? ("title") with
      | none => rfl
      | some t =>
        rw [ht] at htitle
        simp only [beq_iff_eq] at htitle
        simp [htitle]
    have hD : normDesc j = "Continue exploring this path." := by
      unfold normDesc
      rw [hdesc]
    simp [usesDefaults, hT, hD]

theorem c4_amended_witness :
    truthyO ((Json.obj [("foo", Json.num 1 0)]).get? ("node")) = false ∧
    titleFallsBack (Json.obj [("foo", Json.num 1 0)]) = true ∧
    (Json.obj [("foo", Json.num 1 0)]).getStr? ("description") = none ∧
    usesDefaults (normalizeNodeJson (Json.obj [("foo", Json.num 1 0)])) = true :=
  ⟨rfl, rfl, rfl,
    c4_amended_defaults_used (Json.obj [("foo", Json.num 1 0)]) rfl rfl rfl⟩

/-! ## C1: success and size bounds of the pipeline -/

/-- C1 (counterexample): the raw text
`{"title":"T","description":"D","resources":[{"url":"nota url"}]}` is a
bare JSON object with nonempty string `title` and `description` fields,
so the claim says the pipeline succeeds.  Instead the coercion of the
resource entry throws (`new URL('nota url')`) and the pipeline fails. -/
theorem c1_claim_counterexample :
    runGenerate (fun _ =>
        Except.ok
          ("\x7b\"title\":\"T\",\"description\":\"D\",\"resources\":[\x7b\"url\":\"nota url\"\x7d]\x7d")) =
      (1, Except.error ("Invalid URL")) := rfl

/-- Size bounds on the ok-result (if any). -/
def okBounds : Except String GenResponse → Bool
  | .ok g =>
    decide (g.node.options.length ≤ 6) && decide (g.node.resources.length ≤ 8)
  | .error _ => true

/-- C1 (amended): whenever the first model text yields a truthy extracted
value, the pipeline issues exactly one model call and returns the
normalize-then-validate outcome of that value; whenever that outcome is a
success, its options list has length at most 6 and its resources list
length at most 8.  (Unconditional success is refuted: coercion can throw
on a malformed resource url, and strict validation can fail, e.g. on a
whitespace-only description.) -/
theorem c1_amended_single_call_bounds (calls : Nat → Except String String)
    (raw : String) (j : Json)
    (h0 : calls 0 = Except.ok raw)
    (hx : truthyVal (pipelineExtract raw) = some j) :
    runGenerate calls = (1, finishAttempt j) ∧ okBounds (finishAttempt j) = true := by
  constructor
  · unfold runGenerate
    simp only [h0, hx]
  · unfold finishAttempt
    cases hn : normalizeNodeJson j with
    | error e => rfl
    | ok g =>
      obtain ⟨hb1, hb2⟩ := normalize_bounds j g hn
      by_cases hs : outputSchemaOk g = true
      · simp [hs, okBounds, hb1, hb2]
      · simp only [Bool.not_eq_true] at hs
        simp [hs, okBounds]

def rawW1 : String := "\x7b\"title\":\"Hi\",\"description\":\"There\"\x7d"

def jW1 : Json :=
  Json.obj [("title", Json.str ("Hi")), ("description", Json.str ("There"))]

theorem c1_amended_witness :
    truthyVal (pipelineExtract rawW1) = some jW1 ∧
    (runGenerate (fun _ => Except.ok rawW1) = (1, finishAttempt jW1) ∧
      okBounds (finishAttempt jW1) = true) :=
  ⟨rfl, c1_amended_single_call_bounds (fun _ => Except.ok rawW1) rawW1 jW1 rfl rfl⟩

/-! ## C9: shape of successful discovery responses -/

/-- Every entry shaped by the discovery route carries the fixed
model-derived source tag. -/
theorem shapeOne_source (i : Nat) (r : Json) (d : DResource)
    (h : shapeOne i r = .ok d) : d.source = "gemini" := by
  unfold shapeOne at h
  split at h
  · exact absurd h (by simp)
  · injection h with h
    subst h
    rfl

theorem shapeItems_spec (xs : List Json) (i : Nat) (l : List DResource)
    (h : shapeItems i xs = .ok l) :
    l.length = xs.length ∧ ∀ d ∈ l, d.source = "gemini" := by
  induction xs generalizing i l with
  | nil =>
    injection h with h
    subst h
    simp
  | cons x t ih =>
    unfold shapeItems at h
    cases h1 : shapeOne i x with
    | error e => rw [h1] at h; exact absurd h (by simp)
    | ok d =>
      rw [h1] at h
      cases h2 : shapeItems (i + 1) t with
      | error e => rw [h2] at h; exact absurd h (by simp)
      | ok ds =>
        rw [h2] at h
        injection h with h
        subst h
        obtain ⟨hlen, hsrc⟩ := ih (i + 1) ds h2
        refine ⟨by simp [hlen], ?_⟩
        intro a ha
        rcases List.mem_cons.mp ha with ha | ha
        · subst ha; exact shapeOne_source i x a h1
        · exact hsrc a ha

/-- Conjunction of the claimed response-shape facts. -/
def dResListOk (l : List DResource) : Bool :=
  decide (l.length ≤ 12) &&
    l.all (fun d => (d.url != "") && (d.source == "gemini"))

/-- C9 (confirmed): every 200 response of the resource-discovery route
carries at most 12 resources, each with a nonempty url (url-less entries
are dropped by the filter) and the fixed `gemini` source tag. -/
theorem c9_discovery_response_shape (hasKey : Bool) (body : Option Json)
    (upstream : Except String (Nat × String)) (res : List DResource)
    (h : resourcesPOST hasKey body upstream = (200, res)) :
    dResListOk res = true := by
  have hnil : dResListOk [] = true := rfl
  unfold resourcesPOST at h
  repeat' split at h
  all_goals try (injection h with h1 h2; subst h2; exact hnil)
  rename_i shaped hshaped
  injection h with h1 h2
  subst h2
  obtain ⟨hlen, hsrc⟩ := shapeItems_spec _ _ _ hshaped
  unfold dResListOk
  refine (Bool.and_eq_true _ _).mpr ⟨?_, ?_⟩
  · refine decide_eq_true ?_
    calc (dropNoUrl shaped).length
        ≤ shaped.length := List.length_filter_le _ _
      _ = _ := hlen
      _ ≤ 12 := List.length_take_le 12 _
  · refine List.all_eq_true.mpr ?_
    intro d hd
    obtain ⟨hmem, hurl⟩ := List.mem_filter.mp hd
    refine (Bool.and_eq_true _ _).mpr ⟨hurl, ?_⟩
    simp [hsrc d hmem]

def c9BodyW : Json := Json.obj [("q", Json.str ("learn rust"))]

def c9RawW : String :=
  "\x7b\"candidates\":[\x7b\"content\":\x7b\"parts\":[\x7b\"text\":\"\x7b\\\"resources\\\":[\x7b\\\"title\\\":\\\"A\\\",\\\"url\\\":\\\"https://a.b\\\"\x7d]\x7d\"\x7d]\x7d\x7d]\x7d"

/-! ## C6: idempotence of Step 5 coercion -/

theorem dropWhile_cons_head {p : Char → Bool} {l : List Char} {x : Char}
    {rest : List Char} (h : l.dropWhile p = x :: rest) : p x = false := by
  induction l with
  | nil => simp [List.dropWhile] at h
  | cons a t ih =>
    rw [List.dropWhile_cons] at h
    by_cases hp : p a = true
    · rw [if_pos hp] at h; exact ih h
    · rw [if_neg hp] at h
      injection h with h1 h2
      subst h1
      simpa using hp

theorem dropWhile_idem (p : Char → Bool) (l : List Char) :
    (l.dropWhile p).dropWhile p = l.dropWhile p := by
  cases hd : l.dropWhile p with
  | nil => rfl
  | cons x rest =>
    have hx := dropWhile_cons_head hd
    rw [List.dropWhile_cons, if_neg (by simp [hx])]

theorem trimChars_idem (cs : List Char) :
    trimChars (trimChars cs) = trimChars cs := by
  unfold trimChars
  set A := cs.dropWhile isJsWs with hA
  set B := A.reverse.dropWhile isJsWs with hB
  have h1 : B.reverse.dropWhile isJsWs = B.reverse := by
    cases hBr : B.reverse with
    | nil => simp
    | cons x t =>
      have hsplit : A.reverse.takeWhile isJsWs ++ B = A.reverse := by
        rw [hB]; exact List.takeWhile_append_dropWhile _ _
      have hA2 : A = B.reverse ++ (A.reverse.takeWhile isJsWs).reverse := by
        have h3 := congrArg List.reverse hsplit
        rw [List.reverse_append, List.reverse_reverse] at h3
        exact h3.symm
      have hAx : cs.dropWhile isJsWs =
          x :: (t ++ (A.reverse.takeWhile isJsWs).reverse) := by
        calc cs.dropWhile isJsWs = A := hA.symm
          _ = B.reverse ++ (A.reverse.takeWhile isJsWs).reverse := hA2
          _ = x :: (t ++ (A.reverse.takeWhile isJsWs).reverse) := by rw [hBr]; rfl
      have hx := dropWhile_cons_head hAx
      rw [List.dropWhile_cons, if_neg (by simp [hx])]
  have h2 : B.dropWhile isJsWs = B := by rw [hB]; exact dropWhile_idem _ _
  rw [h1, List.reverse_reverse, h2]

theorem jsTrimStr_idem (s : String) : jsTrimStr (jsTrimStr s) = jsTrimStr s := by
  unfold jsTrimStr
  rw [show (String.mk (trimChars s.data)).data = trimChars s.data from rfl,
    trimChars_idem]

/-- The coerced title is trimmed and nonempty. -/
theorem normTitle_trimmed (c : Json) :
    jsTrimStr (normTitle c) = normTitle c ∧ normTitle c ≠ "" := by
  have hns : jsTrimStr ("Next Step") = "Next Step" ∧ ("Next Step" : String) ≠ "" :=
    ⟨rfl, by decide⟩
  cases hg : c.getStr? ("title") with
  | none =>
    have he : normTitle c = "Next Step" := by simp only [normTitle, hg]
    rw [he]; exact hns
  | some t =>
    by_cases h : jsTrimStr t = ""
    · have he : normTitle c = "Next Step" := by simp only [normTitle, hg, if_pos h]
      rw [he]; exact hns
    · have he : normTitle c = jsTrimStr t := by simp only [normTitle, hg, if_neg h]
      rw [he]; exact ⟨jsTrimStr_idem t, h⟩

/-- The coerced description is trimmed. -/
theorem normDesc_trimmed (c : Json) : jsTrimStr (normDesc c) = normDesc c := by
  cases hg : c.getStr? ("description") with
  | none =>
    have he : normDesc c = "Continue exploring this path." := by
      simp only [normDesc, hg]
    rw [he]
    rfl
  | some d =>
    have he : normDesc c = jsTrimStr d := by simp only [normDesc, hg]
    rw [he]; exact jsTrimStr_idem d

/-- Every coerced option string is nonempty (`filter(Boolean)`). -/
theorem toStringArray_mem_ne (x : Option Json) (s : String)
    (h : s ∈ toStringArray x) : (s != "") = true := by
  unfold toStringArray at h
  split at h
  · simp at h
  · split at h
    · simp at h
    · rename_i htr
      split at h
      · exact (List.mem_filter.mp h).2
      · rename_i s0
        simp only [List.mem_singleton] at h
        subst h
        simpa [Json.truthy] using htr
      · simp at h

/-- Re-coercing a list of nonempty strings is the identity. -/
theorem toStringArray_roundtrip (l : List String)
    (h : ∀ s ∈ l, (s != "") = true) :
    toStringArray (some (Json.arr (l.map Json.str))) = l := by
  show ((l.map Json.str).map optItem).filter (fun s => s != "") = l
  rw [List.map_map]
  rw [show optItem ∘ Json.str = id from funext fun s => rfl, List.map_id]
  exact List.filter_eq_self.mpr h

theorem filterMap_id_map_some {α : Type} (l : List α) :
    (l.map some).filterMap id = l := by
  induction l with
  | nil => rfl
  | cons a t ih => simp [List.filterMap_cons, ih]

def jopt : Option String → Json
  | some s => .str s
  | none => .null

/-- The JS object returned by `normalizeResource` carries all seven keys,
with `undefined` in absent optional fields; `undefined` and JSON `null`
are indistinguishable through every accessor the re-coercion uses, so
absent optionals are represented by `null` here. -/
def resourceToJson (r : SResource) : Json :=
  Json.obj
    [("id", Json.str r.id), ("title", Json.str r.title),
     ("description", Json.str r.description), ("type", Json.str r.type.toStr),
     ("url", jopt r.url),
     ("difficulty",
       match r.difficulty with
       | some d => Json.str d.toStr
       | none => Json.null),
     ("duration", jopt r.duration)]

def nodeObjOf (g : GenResponse) : Json :=
  Json.obj
    [("title", Json.str g.node.title),
     ("description", Json.str g.node.description),
     ("options", Json.arr (g.node.options.map Json.str)),
     ("resources", Json.arr (g.node.resources.map resourceToJson))]

/-- An already-coerced `GenerationResponse` as the JSON value the client
receives (`NextResponse.json(out)`). -/
def responseToJson (g : GenResponse) : Json :=
  Json.obj [("node", nodeObjOf g)]

/-- Re-coercing an already-coerced resource reproduces it exactly (the
string `title` short-circuits the throwing hostname path, the enum fields
are lowercase-stable, and every other field passes through the same
`typeof`-guard it originally satisfied). -/
theorem normalizeResource_roundtrip (n : Nat) (r : SResource) :
    normalizeResource n (resourceToJson r) = .ok (some r) := by
  rcases r with ⟨id, title, desc, ty, url, diff, dur⟩
  rcases diff with _ | d
  · cases url <;> cases ty <;> cases dur <;> rfl
  · cases d <;> cases url <;> cases ty <;> cases dur <;> rfl

theorem mapNormalize_roundtrip (rs : List SResource) (n : Nat) :
    mapNormalize n (rs.map resourceToJson) = .ok (rs.map some) := by
  induction rs generalizing n with
  | nil => rfl
  | cons r t ih =>
    simp only [List.map_cons, mapNormalize, normalizeResource_roundtrip, ih]

/-- A response whose fields satisfy the coercion invariants is a fixed
point of `normalizeNodeJson`. -/
theorem renormalize_fixed (T D : String) (O : List String) (R : List SResource)
    (hTt : jsTrimStr T = T) (hTn : T ≠ "")
    (hDt : jsTrimStr D = D)
    (hOne : ∀ s ∈ O, (s != "") = true) (hOlen : O.length ≤ 6)
    (hRlen : R.length ≤ 8) :
    normalizeNodeJson (responseToJson ⟨⟨T, D, O, R⟩⟩) = .ok ⟨⟨T, D, O, R⟩⟩ := by
  have hcand : candidateOf (responseToJson ⟨⟨T, D, O, R⟩⟩) =
      nodeObjOf ⟨⟨T, D, O, R⟩⟩ := rfl
  have hraw : rawResources (nodeObjOf ⟨⟨T, D, O, R⟩⟩) = R.map resourceToJson := rfl
  have hT : normTitle (nodeObjOf ⟨⟨T, D, O, R⟩⟩) = T := by
    show (if jsTrimStr T = "" then "Next Step" else jsTrimStr T) = T
    rw [hTt, if_neg hTn]
  have hD : normDesc (nodeObjOf ⟨⟨T, D, O, R⟩⟩) = D := hDt
  have hO : normOptions (nodeObjOf ⟨⟨T, D, O, R⟩⟩) = O := by
    show (toStringArray (some (Json.arr (O.map Json.str)))).take 6 = O
    rw [toStringArray_roundtrip O hOne]
    exact List.take_of_length_le hOlen
  unfold normalizeNodeJson
  rw [hcand, hraw, mapNormalize_roundtrip]
  simp only [hT, hD, hO]
  rw [filterMap_id_map_some, List.take_of_length_le hRlen]

/-- C6 (confirmed): Step 5 coercion is idempotent on its own validated
outputs — re-running `normalizeNodeJson` on the JSON form of a coerced
response that passed `OutputSchema` reproduces it field for field. -/
theorem c6_normalization_idempotent (j : Json) (g : GenResponse)
    (h : normalizeNodeJson j = .ok g) (hv : outputSchemaOk g = true) :
    normalizeNodeJson (responseToJson g) = .ok g := by
  rcases g with ⟨⟨T, D, O, R⟩⟩
  unfold normalizeNodeJson at h
  cases hm : mapNormalize 0 (rawResources (candidateOf j)) with
  | error e => rw [hm] at h; exact absurd h (by simp)
  | ok l =>
    rw [hm] at h
    simp only [Except.ok.injEq, GenResponse.mk.injEq, GenNode.mk.injEq] at h
    obtain ⟨hT, hD, hO, hR⟩ := h
    subst hT
    subst hD
    subst hO
    subst hR
    apply renormalize_fixed
    · exact (normTitle_trimmed _).1
    · exact (normTitle_trimmed _).2
    · exact normDesc_trimmed _
    · intro s hs
      unfold normOptions at hs
      exact toStringArray_mem_ne _ s (List.take_subset 6 _ hs)
    · exact List.length_take_le 6 _
    · exact List.length_take_le 8 _

def jW6 : Json := Json.obj [("title", Json.str ("A")), ("description", Json.str ("B"))]

def gW6 : GenResponse := ⟨⟨"A", "B", [], []⟩⟩

theorem c6_normalization_idempotent_witness :
    normalizeNodeJson jW6 = Except.ok gW6 ∧ outputSchemaOk gW6 = true ∧
    normalizeNodeJson (responseToJson gW6) = Except.ok gW6 :=
  ⟨rfl, rfl, c6_normalization_idempotent jW6 gW6 rfl rfl⟩

theorem c9_discovery_response_shape_witness :
    resourcesPOST true (some c9BodyW) (Except.ok (200, c9RawW)) =
      (200, (resourcesPOST true (some c9BodyW) (Except.ok (200, c9RawW))).2) ∧
    dResListOk (resourcesPOST true (some c9BodyW) (Except.ok (200, c9RawW))).2 = true :=
  ⟨rfl, c9_discovery_response_shape true (some c9BodyW) (Except.ok (200, c9RawW)) _ rfl⟩

end TG
